import Mathlib

/-!
Verification of the `vanilla-router` routing library.

The repository ships three closely related router implementations:
* `router.ts` (first half) — a plain router: segment matcher, no guards;
* `router.ts` (second half, the Angular-flavoured `Router`) — regex matcher,
  `canActivate` / `canLoad` / `canDeactivate` guards, resolvers, redirect
  substitution (`_handleRedirect`), and a constructor-time wildcard check;
* `router2.ts` — segment matcher, `canActivate` guards and resolvers only,
  verbatim `redirectTo`.

This file shallowly embeds the three variants.  Pure functions become Lean
functions; the routers' instance fields (`currentPath`, `currentParams`,
`currentQuery`, `currentComponentRef`) become an explicit `RouterState` that is
threaded through; asynchronous guard/resolver evaluation (which the source
awaits with `Promise.all` before inspecting any verdict) becomes ordinary
evaluation of every listed guard, recorded in an explicit event trace;
exceptions (`decodeURIComponent` throwing, a resolver rejecting) become
`Option`/outcome values.  DOM rendering and `window.history` calls are modelled
as trace events.
-/

/-! ### JavaScript string primitives -/

/-- JavaScript `String.prototype.split` with a single-character separator,
on the character list of the string: splits at every occurrence of the
separator and never returns an empty list (`"".split(c)` is `[""]`). -/
def jsSplit (sep : Char) : List Char → List (List Char)
  | [] => [[]]
  | c :: t =>
    match jsSplit sep t with
    | [] => [[]]
    | h :: r => if c = sep then [] :: h :: r else (c :: h) :: r

/-- Value of a hexadecimal digit character, `none` for a non-hex character. -/
def hexVal (c : Char) : Option Nat :=
  if '0' ≤ c ∧ c ≤ '9' then some (c.toNat - 48)
  else if 'A' ≤ c ∧ c ≤ 'F' then some (c.toNat - 55)
  else if 'a' ≤ c ∧ c ≤ 'f' then some (c.toNat - 87)
  else none

/-- UTF-8 encoding of one character, as byte values. -/
def charUtf8 (c : Char) : List Nat :=
  let n := c.toNat
  if n < 0x80 then [n]
  else if n < 0x800 then [0xC0 + n / 64, 0x80 + n % 64]
  else if n < 0x10000 then [0xE0 + n / 4096, 0x80 + n / 64 % 64, 0x80 + n % 64]
  else [0xF0 + n / 262144, 0x80 + n / 4096 % 64, 0x80 + n / 64 % 64, 0x80 + n % 64]

/-- First phase of ECMAScript `decodeURIComponent`: every `%XX` pair becomes the
byte `XX` (a malformed escape throws, i.e. `none`); every other character
contributes its UTF-8 bytes. -/
def percentBytes : List Char → Option (List Nat)
  | [] => some []
  | '%' :: h1 :: h2 :: rest =>
    match hexVal h1, hexVal h2 with
    | some a, some b => (percentBytes rest).map (fun r => (16 * a + b) :: r)
    | _, _ => none
  | '%' :: _ => none
  | c :: rest => (percentBytes rest).map (fun r => charUtf8 c ++ r)

/-- Whether a byte is a UTF-8 continuation byte. -/
def isCont (b : Nat) : Bool :=
  if 0x80 ≤ b ∧ b ≤ 0xBF then true else false

/-- Strict UTF-8 decoding of a byte sequence (rejecting overlong forms,
surrogates and out-of-range lead bytes), as performed by the ECMAScript
`Decode` abstract operation; `none` models the `URIError` throw. -/
def utf8Decode : List Nat → Option (List Char)
  | [] => some []
  | b :: rest =>
    if b ≤ 0x7F then (utf8Decode rest).map (fun r => Char.ofNat b :: r)
    else if 0xC2 ≤ b ∧ b ≤ 0xDF then
      match rest with
      | c1 :: rest' =>
        if isCont c1 then
          (utf8Decode rest').map (fun r => Char.ofNat ((b - 0xC0) * 64 + (c1 - 0x80)) :: r)
        else none
      | [] => none
    else if 0xE0 ≤ b ∧ b ≤ 0xEF then
      match rest with
      | c1 :: c2 :: rest' =>
        let lo1 := if b = 0xE0 then 0xA0 else 0x80
        let hi1 := if b = 0xED then 0x9F else 0xBF
        if (lo1 ≤ c1 ∧ c1 ≤ hi1) ∧ isCont c2 then
          (utf8Decode rest').map
            (fun r => Char.ofNat ((b - 0xE0) * 4096 + (c1 - 0x80) * 64 + (c2 - 0x80)) :: r)
        else none
      | _ => none
    else if 0xF0 ≤ b ∧ b ≤ 0xF4 then
      match rest with
      | c1 :: c2 :: c3 :: rest' =>
        let lo1 := if b = 0xF0 then 0x90 else 0x80
        let hi1 := if b = 0xF4 then 0x8F else 0xBF
        if (lo1 ≤ c1 ∧ c1 ≤ hi1) ∧ (isCont c2 ∧ isCont c3) then
          (utf8Decode rest').map
            (fun r => Char.ofNat
              ((b - 0xF0) * 262144 + (c1 - 0x80) * 4096 + (c2 - 0x80) * 64 + (c3 - 0x80)) :: r)
        else none
      | _ => none
    else none

/-- ECMAScript `decodeURIComponent` on a character list; `none` models a
`URIError` throw (malformed escape or invalid UTF-8). -/
def decodeURIComponentChars (s : List Char) : Option (List Char) :=
  match percentBytes s with
  | some bs => utf8Decode bs
  | none => none

/-! ### Parameter / query maps

`Record<string, string>` objects.  Property assignment `m[k] = v` keeps the
insertion position of an existing key and overwrites its value, so the map is
an association list with unique keys maintained by `setKey`; property read is
`List.lookup`. -/

/-- A JavaScript `Record<string, string>` object. -/
def Params := List (String × String)

instance : DecidableEq Params := by
  unfold Params
  infer_instance

instance : Inhabited Params := ⟨([] : List (String × String))⟩

/-- JavaScript object property assignment `m[k] = v`: overwrite in place if the
key exists, append otherwise. -/
def setKey : Params → String → String → Params
  | [], k, v => [(k, v)]
  | (k', v') :: t, k, v => if k' = k then (k, v) :: t else (k', v') :: setKey t k v

/-! ### Query parsing (`_parsePath`, identical in all three variants) -/

/-- The query-string loop of `_parsePath`: for each `&`-separated token,
`const [key, value] = param.split('=')`, skip tokens with a falsy key, and
assign `query[key] = value ? decodeURIComponent(value) : ''`.  `none` models
`decodeURIComponent` throwing. -/
def processQuery : List (List Char) → Params → Option Params
  | [], q => some q
  | tok :: rest, q =>
    let kv := jsSplit '=' tok
    let key := kv.headD []
    if key.isEmpty then processQuery rest q
    else
      match kv[1]? with
      | none => processQuery rest (setKey q key.asString "")
      | some v =>
        if v.isEmpty then processQuery rest (setKey q key.asString "")
        else
          match decodeURIComponentChars v with
          | some d => processQuery rest (setKey q key.asString d.asString)
          | none => none

/-- The pathname/query part of `_parsePath`:
`const [pathname, queryString] = path.split('?')`, then the query loop when
`queryString` is truthy. -/
def parsePathCore (path : String) : Option (String × Params) :=
  let parts := jsSplit '?' path.toList
  let pathname := (parts.headD []).asString
  match parts[1]? with
  | none => some (pathname, [])
  | some qs =>
    if qs.isEmpty then some (pathname, [])
    else
      match processQuery (jsSplit '&' qs) [] with
      | some q => some (pathname, q)
      | none => none

/-! ### Data model

`Route` mirrors the `Route` interface of the Angular-flavoured router (the
richest of the three; `router2.ts` and the plain router use subsets of its
fields, and their embedded functions below read only the fields their source
declares).  Deferred loaders are modelled by their observable behaviour for one
invocation: `none` = no loader declared, `some true` = loader resolves,
`some false` = loader rejects/throws.  A `canLoad` guard receives the `Route`
itself in the source, so for a fixed route each such guard is a fixed verdict,
modelled as a `Bool`.  `errorComponent` is modelled by its presence.  The
`pathMatch` field is never read by any of the three implementations and is
omitted. -/

/-- The `ActivatedRoute` snapshot handed to guards, resolvers and views. -/
structure ActivatedRoute where
  params : Params
  queryParams : Params
  path : String
  data : Params
deriving DecidableEq

/-- A route definition (see the module comment for the loader/guard model). -/
structure Route where
  path : String
  loadComponent : Option Bool := none
  loadChildren : Option Bool := none
  redirectTo : Option String := none
  data : Params := []
  children : List Route := []
  canActivate : List (ActivatedRoute → Bool) := []
  canDeactivate : List (ActivatedRoute → Bool) := []
  canLoad : List Bool := []
  resolve : List (String × (ActivatedRoute → Option String)) := []
  errorComponent : Bool := false

/-- A route with only a `path` (every optional attribute absent).  Lean does
not synthesise the default for the recursive `children` field in anonymous
constructor notation, so concrete routes are written as updates of this one. -/
def route0 (path : String) : Route :=
  { path := path, children := [] }

/-- The mutable instance state of a `Router`: `currentParams`, `currentPath`,
`currentQuery`, and whether a component is currently mounted
(`currentComponentRef !== null`). -/
structure RouterState where
  currentParams : Params := []
  currentPath : String := ""
  currentQuery : Params := []
  mounted : Bool := false
deriving DecidableEq

/-! ### Segment-based matcher (`_findMatchingRoute` of the plain router and of
`router2.ts`; the two are textually identical) -/

/-- `path.split('/').filter(Boolean)`: the non-empty `/`-separated segments. -/
def segments (s : String) : List String :=
  ((jsSplit '/' s.toList).map List.asString).filter (fun seg => seg ≠ "")

/-- JavaScript `seg.startsWith(':')` (its only use in the source). -/
def startsWithColon (s : String) : Bool :=
  match s.toList with
  | ':' :: _ => true
  | _ => false

/-- The per-segment loop: a `:name` route segment binds the path segment under
`name` (`params[paramName] = pathSegment`), any other route segment must match
literally; `none` is the `isMatch = false` outcome. -/
def segLoop : List String → List String → Params → Option Params
  | [], [], acc => some acc
  | rseg :: rt, pseg :: pt, acc =>
    if startsWithColon rseg then segLoop rt pt (setKey acc (rseg.drop 1) pseg)
    else if rseg = pseg then segLoop rt pt acc
    else none
  | _, _, _ => none

mutual
/-- One iteration of the `for (const route of routes)` loop body of the
segment matcher, for a single route: `none` is the `continue` outcome (the
route does not match; `currentParams` untouched), `some (r, st')` means the
loop returns `r` with `currentParams = st'`.  The route is destructured so
that the recursion into its `children` is structural. -/
def findRouteStep : Route → String → Params → Option (Route × Params)
  | Route.mk p lc lch rd d children ca cd cl rs ec, pathname, st =>
    let route := Route.mk p lc lch rd d children ca cd cl rs ec
    if p = pathname then some (route, st)
    else if p = "*" then some (route, st)
    else
      let routeSegments := segments p
      let pathSegments := segments pathname
      if routeSegments.length ≠ pathSegments.length then none
      else
        match segLoop routeSegments pathSegments [] with
        | none => none
        | some params =>
          match findList children pathname params with
          | (some child, st') => some (child, st')
          | (none, st') => some (route, st')
  termination_by structural r => r

/-- The `for (const route of routes)` loop of the segment matcher: try each
route in declaration order, returning the first hit. -/
def findList : List Route → String → Params → Option Route × Params
  | [], _, st => (none, st)
  | route :: rest, pathname, st =>
    match findRouteStep route pathname st with
    | some (r, st') => (some r, st')
    | none => findList rest pathname st
  termination_by structural l => l
end

/-- `_findMatchingRoute` of the plain router / `router2.ts`.  The source
mutates `this.currentParams` when a segment match succeeds; that field is
threaded explicitly, so the result is the returned route (or `null`) together
with the final `currentParams`.  Note the two fast paths: exact string
equality of `route.path` and the pathname, and the `'*'` wildcard, both of
which return without touching `currentParams` and without recursing into
children; a segment match stores its params (a fresh object, not merged with
the parent's) and then recurses into `route.children` against the same full
pathname. -/
def findMatchingRoute (routes : List Route) (pathname : String) (st : Params) :
    Option Route × Params :=
  findList routes pathname st

/-! ### Regex-based matcher (`_convertPathToRegex` / `_findMatchingRoute` of
the Angular-flavoured router)

`_convertPathToRegex` rewrites the route pattern with
`replace(/\/:([^/]+)/g, '/([^/]+)')` and then `replace(/\*/g, '.*')`, and
anchors the result with `^...$`.  The resulting regular expressions use only
four kinds of atoms, modelled as tokens: a literal character, `([^/]+)` (one
or more non-`/` characters), `.*` (anything), and `.` (any one character —
an unescaped dot in a route pattern is a regex metacharacter).  Other regex
metacharacters that could appear in a route path are modelled as literal
characters. -/

/-- One atom of a compiled route pattern. -/
inductive RTok where
  | lit (c : Char)
  | param
  | wildcard
  | anyChar
deriving DecidableEq

/-- Fuel-indexed worker for `tokenizePath`: every recursive call is on a
strictly shorter character list, so fuel equal to the input length (supplied
by the wrapper) is never exhausted. -/
def tokenizeGo : Nat → List Char → List RTok
  | _, [] => []
  | 0, _ => []
  | fuel + 1, '/' :: ':' :: c :: rest =>
    if c = '/' then RTok.lit '/' :: RTok.lit ':' :: tokenizeGo fuel (c :: rest)
    else
      RTok.lit '/' :: RTok.param ::
        tokenizeGo fuel ((c :: rest).dropWhile (fun ch => ch ≠ '/'))
  | _ + 1, ['/', ':'] => [RTok.lit '/', RTok.lit ':']
  | fuel + 1, '*' :: rest => RTok.wildcard :: tokenizeGo fuel rest
  | fuel + 1, '.' :: rest => RTok.anyChar :: tokenizeGo fuel rest
  | fuel + 1, c :: rest => RTok.lit c :: tokenizeGo fuel rest

/-- Tokenisation of a route pattern, mirroring the two `replace` passes:
`/:name` (name = one or more non-`/` characters) becomes `/` followed by a
single-segment capture, every remaining `*` becomes `.*`, and a remaining `.`
is the any-character metacharacter. -/
def tokenizePath (l : List Char) : List RTok :=
  tokenizeGo l.length l

/-- Anchored matching of a token list against an input: `rmatch toks cs` holds
iff the whole of `cs` is matched.  `param` tries every non-empty prefix of
non-`/` characters, `wildcard` tries every split — Boolean-equivalent to the
backtracking of the source regexes. -/
def rmatch : List RTok → List Char → Bool
  | [], cs => cs.isEmpty
  | RTok.lit _ :: _, [] => false
  | RTok.lit c :: ts, d :: cs => c = d && rmatch ts cs
  | RTok.anyChar :: _, [] => false
  | RTok.anyChar :: ts, _ :: cs => rmatch ts cs
  | RTok.param :: ts, cs =>
    (List.range cs.length).any
      (fun k => (cs.take (k + 1)).all (fun ch => ch ≠ '/') && rmatch ts (cs.drop (k + 1)))
  | RTok.wildcard :: ts, cs =>
    (List.range (cs.length + 1)).any (fun k => rmatch ts (cs.drop k))

/-- `path.match(this._convertPathToRegex(route.path))` tested for success:
the anchored pattern must match the whole pathname. -/
def regexFullMatch (routePath pathname : String) : Bool :=
  rmatch (tokenizePath routePath.toList) pathname.toList

/-- One step of the best-match fold in the Angular-flavoured
`_findMatchingRoute`: on a regex match, `match[0].length` is the whole
pathname's length (the regex is anchored), and the candidate replaces the
running best only when strictly longer (`bestMatchLength` starts at `-1`,
modelled by `none`). -/
def bestStep (pathname : String) (best : Option (Route × Nat)) (route : Route) :
    Option (Route × Nat) :=
  if regexFullMatch route.path pathname then
    let matchedLength := pathname.length
    match best with
    | none => some (route, matchedLength)
    | some (_, bestLen) => if matchedLength > bestLen then some (route, matchedLength) else best
  else best

/-- `_findMatchingRoute` of the Angular-flavoured router: fold for the best
(regex-matching) candidate, then `?? routes.find(r => r.path === '*') ?? null`. -/
def findMatchingRouteB (routes : List Route) (pathname : String) : Option Route :=
  match routes.foldl (bestStep pathname) none with
  | some (r, _) => some r
  | none => routes.find? (fun r => r.path = "*")

/-- `_handleRedirect`: `redirectTo.replace(/:\w+/g, m => params[m.slice(1)] || m)`
— each `:name` (name = one or more ASCII word characters) is replaced by the
matched parameter of that name, kept verbatim when the parameter is absent or
empty (falsy). -/
def isWordChar (c : Char) : Bool :=
  c.isAlphanum || c = '_'

/-- Fuel-indexed worker for `_handleRedirect`: every recursive call is on a
strictly shorter character list, so fuel equal to the input length (supplied
by `handleRedirect`) is never exhausted. -/
def substGo (params : Params) : Nat → List Char → List Char
  | _, [] => []
  | 0, l => l
  | fuel + 1, ':' :: rest =>
    let name := rest.takeWhile isWordChar
    if name.isEmpty then ':' :: substGo params fuel rest
    else
      let repl :=
        match params.lookup name.asString with
        | some v => if v = "" then ':' :: name else v.toList
        | none => ':' :: name
      repl ++ substGo params fuel (rest.dropWhile isWordChar)
  | fuel + 1, c :: rest => c :: substGo params fuel rest

/-- `_handleRedirect(redirectTo, params)` of the Angular-flavoured router:
`redirectTo.replace(/:\w+/g, m => params[m.slice(1)] || m)`. -/
def handleRedirect (redirectTo : String) (params : Params) : String :=
  (substGo params redirectTo.toList.length redirectTo.toList).asString

/-! ### Parameter extraction and `_parsePath` of the Angular-flavoured router -/

/-- The index loop of `_extractRouteParams`: walk route/path segments in
lockstep while both remain, binding `:name` route segments. -/
def extractLoop : List String → List String → Params → Params
  | rseg :: rt, pseg :: pt, params =>
    if startsWithColon rseg then extractLoop rt pt (setKey params (rseg.drop 1) pseg)
    else extractLoop rt pt params
  | _, _, params => params

mutual
/-- Height of a route tree node (used as recursion fuel below). -/
def routeDepth : Route → Nat
  | Route.mk _ _ _ _ _ children _ _ _ _ _ => 1 + routeDepthList children
  termination_by structural r => r
/-- Height of a forest of route trees. -/
def routeDepthList : List Route → Nat
  | [] => 0
  | r :: t => max (routeDepth r) (routeDepthList t)
  termination_by structural l => l
end

/-- Fuel-indexed worker for `_extractRouteParams`.  The source recursion
descends into a route drawn from `route.children` at every level, so on the
(finite, acyclic) route trees of the model it descends at most
`routeDepth route` levels; the fuel only realises that bound and is never
exhausted when the function is applied through `extractRouteParams`. -/
def extractGo : Nat → Route → String → Params → Params
  | 0, _, _, params => params
  | fuel + 1, route, pathname, params =>
    let routeSegments := segments route.path
    let pathSegments := segments pathname
    let params' := extractLoop routeSegments pathSegments params
    let remainingPath := String.intercalate "/" (pathSegments.drop routeSegments.length)
    match findMatchingRouteB route.children remainingPath with
    | some childRoute => extractGo fuel childRoute remainingPath params'
    | none => params'

/-- `_extractRouteParams(route, pathname, params)` of the Angular-flavoured
router: bind this level's `:name` segments, then recurse into the best-matching
child against the `/`-joined remaining segments. -/
def extractRouteParams (route : Route) (pathname : String) (params : Params) : Params :=
  extractGo (routeDepth route) route pathname params

/-- `_parsePath` of the Angular-flavoured router: pathname/query as in
`parsePathCore`, and params extracted from the best-matching route (fresh
`{}` when nothing matches). -/
def parsePathB (routes : List Route) (path : String) : Option (String × Params × Params) :=
  match parsePathCore path with
  | none => none
  | some (pathname, query) =>
    let params :=
      match findMatchingRouteB routes pathname with
      | some route => extractRouteParams route pathname []
      | none => []
    some (pathname, params, query)

/-! ### Constructor-time wildcard check (Angular-flavoured router only) -/

/-- JavaScript `Array.prototype.findIndex` on routes (`none` for `-1`). -/
def findIndexRoute (p : Route → Bool) : List Route → Option Nat
  | [] => none
  | r :: t => if p r then some 0 else (findIndexRoute p t).map (fun i => i + 1)

/-- The constructor check of the Angular-flavoured router: look up the first
top-level route with path `'*'` and throw when it exists and is not the last
top-level route.  `true` = the constructor throws.  (`router2.ts` and the
plain router perform no such check at all.) -/
def constructorThrows (routes : List Route) : Bool :=
  match findIndexRoute (fun r => r.path = "*") routes with
  | some i => if i ≠ routes.length - 1 then true else false
  | none => false

/-! ### The navigation pipelines (`_handleRouting`)

One call of `_handleRouting` is modelled as a function from the router state
and the raw path to the new state, a trace of observable events, and an
outcome.  The re-entrant `this.navigate(target, true)` performed on redirect is
recorded as a `navigateCall` event (the source recursion is unbounded — a
redirect loop never terminates — so one attempt is the unit of modelling). -/

/-- Observable events of one `_handleRouting` call, in order. -/
inductive Ev where
  | evalCanActivate (i : Nat) (arg : ActivatedRoute) (res : Bool)
  | evalCanLoad (i : Nat) (res : Bool)
  | evalCanDeactivate (i : Nat) (arg : ActivatedRoute) (res : Bool)
  | evalResolve (key : String) (ok : Bool)
  | invokeLoader
  | mountedView
  | renderedLoadError
  | rendered404
  | navigateCall (target : String) (replace : Bool)
  | routechange (path : String) (params : Params) (query : Params)
deriving DecidableEq

/-- How one `_handleRouting` call ended. -/
inductive Outcome where
  | uriError
  | notFound
  | blocked
  | resolverThrew
  | redirected (target : String)
  | completed
deriving DecidableEq

/-- The `ActivatedRoute` object literal the Angular-flavoured router builds for
guards and resolvers: the **already overwritten** instance fields plus the
route's static data. -/
def activatedFrom (st : RouterState) (data : Params) : ActivatedRoute :=
  { params := st.currentParams, queryParams := st.currentQuery,
    path := st.currentPath, data := data }

/-- The routechange-filtered view of a trace. -/
def routechangeEvents (evs : List Ev) : List Ev :=
  evs.filter (fun e => match e with | Ev.routechange _ _ _ => true | _ => false)

/-- `_handleRouting` of the Angular-flavoured router (`router.ts`).  Mirrors
the source order exactly: overwrite `currentParams`/`currentPath`/
`currentQuery` from `_parsePath`, match, then `canActivate`, then `canLoad`
(only when a lazy loader is declared), then `canDeactivate` (only when a
component is mounted), then resolvers, then the `redirectTo` check, then
loading; the trailing `routechange` dispatch is reached on the no-match and
load paths but skipped by every guard `return`, by a redirect and by a
rejecting resolver (whose exception propagates). -/
def handleRoutingB (routes : List Route) (st : RouterState) (path : String) :
    RouterState × List Ev × Outcome :=
  match parsePathB routes path with
  | none => (st, [], Outcome.uriError)
  | some (pathname, params, query) =>
    let st1 : RouterState :=
      { currentParams := params, currentPath := pathname, currentQuery := query,
        mounted := st.mounted }
    match findMatchingRouteB routes pathname with
    | none => (st1, [Ev.rendered404, Ev.routechange path params query], Outcome.notFound)
    | some route =>
      let act := activatedFrom st1 route.data
      let actEvs := route.canActivate.enum.map
        (fun p => Ev.evalCanActivate p.1 act (p.2 act))
      if (route.canActivate.map (fun g => g act)).any (fun r => !r) then
        (st1, actEvs, Outcome.blocked)
      else
        let loaderPresent := route.loadChildren.isSome || route.loadComponent.isSome
        let loadEvs :=
          if loaderPresent then route.canLoad.enum.map (fun p => Ev.evalCanLoad p.1 p.2)
          else []
        if loaderPresent && route.canLoad.any (fun r => !r) then
          (st1, actEvs ++ loadEvs, Outcome.blocked)
        else
          let deactEvs :=
            if st1.mounted then
              route.canDeactivate.enum.map (fun p => Ev.evalCanDeactivate p.1 act (p.2 act))
            else []
          if st1.mounted && (route.canDeactivate.map (fun g => g act)).any (fun r => !r) then
            (st1, actEvs ++ loadEvs ++ deactEvs, Outcome.blocked)
          else
            let resolveEvs := route.resolve.map
              (fun kv => Ev.evalResolve kv.1 (kv.2 act).isSome)
            if route.resolve.any (fun kv => (kv.2 act).isNone) then
              (st1, actEvs ++ loadEvs ++ deactEvs ++ resolveEvs, Outcome.resolverThrew)
            else
              let evs0 := actEvs ++ loadEvs ++ deactEvs ++ resolveEvs
              match route.redirectTo with
              | some target =>
                let redirectPath := handleRedirect target params
                (st1, evs0 ++ [Ev.navigateCall redirectPath true],
                  Outcome.redirected redirectPath)
              | none =>
                match route.loadChildren with
                | some ok =>
                  if ok then
                    ({ st1 with mounted := true },
                      evs0 ++ [Ev.invokeLoader, Ev.mountedView,
                        Ev.routechange path params query],
                      Outcome.completed)
                  else
                    ({ st1 with mounted := route.errorComponent || st1.mounted },
                      evs0 ++ [Ev.invokeLoader, Ev.renderedLoadError,
                        Ev.routechange path params query],
                      Outcome.completed)
                | none =>
                  match route.loadComponent with
                  | some ok =>
                    if ok then
                      ({ st1 with mounted := true },
                        evs0 ++ [Ev.invokeLoader, Ev.mountedView,
                          Ev.routechange path params query],
                        Outcome.completed)
                    else
                      ({ st1 with mounted := route.errorComponent || st1.mounted },
                        evs0 ++ [Ev.invokeLoader, Ev.renderedLoadError,
                          Ev.routechange path params query],
                        Outcome.completed)
                  | none =>
                    (st1, evs0 ++ [Ev.routechange path params query], Outcome.completed)

/-- `_handleRouting` of `router2.ts`.  Its `_parsePath` returns the **stale**
`this.currentParams` of the previous navigation (the matcher has not run yet),
the matcher then overwrites `currentParams` as a side effect, guards and
resolvers read the fresh value, `redirectTo` is re-navigated **verbatim**
(no placeholder substitution), and the trailing `routechange` event carries the
stale destructured `params`. -/
def handleRouting2 (routes : List Route) (st : RouterState) (path : String) :
    RouterState × List Ev × Outcome :=
  match parsePathCore path with
  | none => (st, [], Outcome.uriError)
  | some (pathname, query) =>
    let params := st.currentParams
    let st1 : RouterState :=
      { currentParams := params, currentPath := pathname, currentQuery := query,
        mounted := st.mounted }
    match findMatchingRoute routes pathname st1.currentParams with
    | (none, newParams) =>
      ({ st1 with currentParams := newParams },
        [Ev.rendered404, Ev.routechange path params query], Outcome.notFound)
    | (some route, newParams) =>
      let st2 := { st1 with currentParams := newParams }
      let act := activatedFrom st2 route.data
      let actEvs := route.canActivate.enum.map
        (fun p => Ev.evalCanActivate p.1 act (p.2 act))
      if (route.canActivate.map (fun g => g act)).any (fun r => !r) then
        (st2, actEvs, Outcome.blocked)
      else
        let resolveEvs := route.resolve.map
          (fun kv => Ev.evalResolve kv.1 (kv.2 act).isSome)
        if route.resolve.any (fun kv => (kv.2 act).isNone) then
          (st2, actEvs ++ resolveEvs, Outcome.resolverThrew)
        else
          let evs0 := actEvs ++ resolveEvs
          match route.redirectTo with
          | some target =>
            (st2, evs0 ++ [Ev.navigateCall target true], Outcome.redirected target)
          | none =>
            match route.loadChildren with
            | some ok =>
              (st2,
                evs0 ++ [Ev.invokeLoader,
                  if ok then Ev.mountedView else Ev.renderedLoadError,
                  Ev.routechange path params query],
                Outcome.completed)
            | none =>
              match route.loadComponent with
              | some ok =>
                (st2,
                  evs0 ++ [Ev.invokeLoader,
                    if ok then Ev.mountedView else Ev.renderedLoadError,
                    Ev.routechange path params query],
                  Outcome.completed)
              | none =>
                (st2, evs0 ++ [Ev.routechange path params query], Outcome.completed)

/-! ### Specification-side definitions

The following definitions follow the wording of spec claims (not the source);
each is compared against the corresponding source-derived definition above. -/

/-- The query-token processing as claim C7 words it: each token is split on
the **first** `=` into key and value (the value is everything after the first
`=`), the value is percent-decoded, a missing value yields the empty string,
tokens without a key are ignored, duplicate keys last-occurrence-wins. -/
def claimQueryC7 : List (List Char) → Params → Option Params
  | [], q => some q
  | tok :: rest, q =>
    let key := tok.takeWhile (fun c => c ≠ '=')
    if key.isEmpty then claimQueryC7 rest q
    else
      match tok.dropWhile (fun c => c ≠ '=') with
      | [] => claimQueryC7 rest (setKey q key.asString "")
      | _ :: v =>
        match decodeURIComponentChars v with
        | some d => claimQueryC7 rest (setKey q key.asString d.asString)
        | none => none

/-- `parse` as claim C7 words it: split on the **first** `?` into pathname
and query string (the query string is everything after the first `?`), split
the query string on `&`, and process each token per `claimQueryC7`. -/
def claimParseC7 (path : String) : Option (String × Params) :=
  let l := path.toList
  let pathname := (l.takeWhile (fun c => c ≠ '?')).asString
  match l.dropWhile (fun c => c ≠ '?') with
  | [] => some (pathname, [])
  | _ :: qs =>
    match claimQueryC7 (jsSplit '&' qs) [] with
    | some q => some (pathname, q)
    | none => none

/-- The query-token processing of the amended claim C7: key is the text
before the first `=`, the value is the text **between the first and second**
`=` (anything after a second `=` is discarded); an empty or missing value
yields the empty string, a non-empty value is percent-decoded; tokens with an
empty key are ignored, duplicate keys last-occurrence-wins. -/
def amendedQueryC7 : List (List Char) → Params → Option Params
  | [], q => some q
  | tok :: rest, q =>
    let key := tok.takeWhile (fun c => c ≠ '=')
    if key.isEmpty then amendedQueryC7 rest q
    else
      match tok.dropWhile (fun c => c ≠ '=') with
      | [] => amendedQueryC7 rest (setKey q key.asString "")
      | _ :: vtail =>
        let v := vtail.takeWhile (fun c => c ≠ '=')
        if v.isEmpty then amendedQueryC7 rest (setKey q key.asString "")
        else
          match decodeURIComponentChars v with
          | some d => amendedQueryC7 rest (setKey q key.asString d.asString)
          | none => none

/-- `parse` as the amended claim C7 words it: pathname is the text before the
first `?`, the query string is the text **between the first and second** `?`
(anything after a second `?` is discarded); an empty query string yields no
query parameters, otherwise it is split on `&` and processed per
`amendedQueryC7`. -/
def amendedParseC7 (path : String) : Option (String × Params) :=
  let l := path.toList
  let pathname := (l.takeWhile (fun c => c ≠ '?')).asString
  match l.dropWhile (fun c => c ≠ '?') with
  | [] => some (pathname, [])
  | _ :: tail =>
    let qs := tail.takeWhile (fun c => c ≠ '?')
    if qs.isEmpty then some (pathname, [])
    else
      match amendedQueryC7 (jsSplit '&' qs) [] with
      | some q => some (pathname, q)
      | none => none

/-- Whether a route matches a pathname in the segment matcher's sense: exact
path string, wildcard, or a successful same-length segment walk. -/
def routeMatches (pathname : String) (r : Route) : Bool :=
  r.path == pathname || r.path == "*" ||
    ((segments r.path).length == (segments pathname).length &&
      (segLoop (segments r.path) (segments pathname) []).isSome)

mutual
/-- Every `path` string occurring in a route tree. -/
def treePathsRoute : Route → List String
  | Route.mk p _ _ _ _ children _ _ _ _ _ => p :: treePaths children
  termination_by structural r => r
/-- Every `path` string occurring in a forest of route trees. -/
def treePaths : List Route → List String
  | [] => []
  | r :: t => treePathsRoute r ++ treePaths t
  termination_by structural l => l
end

/-! ### Helper lemmas -/

theorem jsSplit_ne_nil (sep : Char) (l : List Char) : jsSplit sep l ≠ [] := by
  induction l with
  | nil => simp [jsSplit]
  | cons c t ih =>
    rw [jsSplit]
    cases h : jsSplit sep t with
    | nil => simp
    | cons hh r =>
      dsimp only
      split <;> simp

theorem jsSplit_headD (sep : Char) (l : List Char) :
    (jsSplit sep l).headD [] = l.takeWhile (fun c => c ≠ sep) := by
  induction l with
  | nil => simp [jsSplit]
  | cons c t ih =>
    rw [jsSplit]
    cases h : jsSplit sep t with
    | nil => exact absurd h (jsSplit_ne_nil sep t)
    | cons hh r =>
      rw [h] at ih
      simp only [List.headD_cons] at ih
      by_cases hc : c = sep
      · subst hc
        simp [List.takeWhile_cons]
      · simp only [if_neg hc, List.headD_cons]
        simp [List.takeWhile_cons, hc, ih]

theorem jsSplit_getElem1 (sep : Char) (l : List Char) :
    (jsSplit sep l)[1]? =
      (match l.dropWhile (fun c => c ≠ sep) with
        | [] => none
        | _ :: rest => some (rest.takeWhile (fun c => c ≠ sep))) := by
  induction l with
  | nil => simp [jsSplit]
  | cons c t ih =>
    rw [jsSplit]
    cases h : jsSplit sep t with
    | nil => exact absurd h (jsSplit_ne_nil sep t)
    | cons hh r =>
      rw [h] at ih
      by_cases hc : c = sep
      · subst hc
        have hd := jsSplit_headD c t
        rw [h] at hd
        simp only [List.headD_cons] at hd
        simp [List.dropWhile_cons, hd]
      · simp only [if_neg hc]
        simp only [List.getElem?_cons_succ] at ih ⊢
        simpa [List.dropWhile_cons, hc] using ih

theorem processQuery_eq_amended (toks : List (List Char)) (q : Params) :
    processQuery toks q = amendedQueryC7 toks q := by
  induction toks generalizing q with
  | nil => rfl
  | cons tok rest ih =>
    rw [processQuery, amendedQueryC7]
    rw [jsSplit_headD, jsSplit_getElem1]
    cases hdrop : tok.dropWhile (fun c => c ≠ '=') with
    | nil => split <;> simp [ih]
    | cons x vtail => split <;> simp [ih]

theorem parsePathCore_eq_amended (path : String) :
    parsePathCore path = amendedParseC7 path := by
  rw [parsePathCore, amendedParseC7]
  rw [jsSplit_headD, jsSplit_getElem1]
  cases hdrop : path.toList.dropWhile (fun c => c ≠ '?') with
  | nil => rfl
  | cons x tail =>
    dsimp only
    simp only [processQuery_eq_amended]

/-- C7 counterexample: the source splits each query token on **every** `=`
(keeping only the first two pieces), not on the first `=`.  On `"/p?a=1=2"`
the code yields `a = "1"` while the claim's reading ("split on the first `=`
into key and value") yields `a = "1=2"`. -/
theorem C7_counterexample :
    parsePathCore "/p?a=1=2" = some ("/p", [("a", "1")]) ∧
    claimParseC7 "/p?a=1=2" = some ("/p", [("a", "1=2")]) ∧
    parsePathCore "/p?a=1=2" ≠ claimParseC7 "/p?a=1=2" := by
  refine ⟨by decide, by decide, by decide⟩

/-- C7 (amended): `parse` keeps the text before the first `?` as pathname and
the text **between the first and second** `?` as the query string; each token
is split at `=` with key = text before the first `=` and value = text
**between the first and second** `=`; a missing or empty value yields `""`, a
non-empty value is percent-decoded, keyless tokens are ignored, and duplicate
keys last-occurrence-wins.  `parsePathCore` equals this description on every
input, and the claim's concrete examples (including last-wins) evaluate as
stated. -/
theorem C7_corrected_theorem :
    (∀ path, parsePathCore path = amendedParseC7 path) ∧
    parsePathCore "/p?a=1&b=2" = some ("/p", [("a", "1"), ("b", "2")]) ∧
    parsePathCore "/p?a=%20" = some ("/p", [("a", " ")]) ∧
    parsePathCore "/p?a=1&a=2" = some ("/p", [("a", "2")]) :=
  ⟨parsePathCore_eq_amended, by decide, by decide, by decide⟩

theorem findIndexRoute_eq_none_iff (p : Route → Bool) (l : List Route) :
    findIndexRoute p l = none ↔ ∀ r ∈ l, p r = false := by
  induction l with
  | nil => simp [findIndexRoute]
  | cons r t ih =>
    rw [findIndexRoute]
    by_cases hp : p r
    · simp [hp]
    · simp only [if_neg hp]
      simp [Option.map_eq_none', ih, hp]

/-- C8 counterexample: the constructor check inspects only the **top-level**
route list.  A configuration whose child sibling list is `['*', '/b']` — a
wildcard that is not the last sibling — does not raise the configuration
error (`constructorThrows` is `false`), contradicting the claim that every
such sibling list aborts construction. -/
theorem C8_counterexample :
    constructorThrows [{ route0 "/a" with children := [route0 "*", route0 "/b"] }] = false ∧
    ({ route0 "/a" with children := [route0 "*", route0 "/b"] } : Route).children.map
      (fun r => r.path) = ["*", "/b"] := by
  refine ⟨by decide, by decide⟩

theorem ite_true_false_iff {c : Prop} [Decidable c] :
    ((if c then true else false) = true) ↔ c := by
  by_cases h : c <;> simp [h]

/-- C8 (amended): only the top-level route list is validated (and only by the
Angular-flavoured router; `router2.ts` performs no check): construction
throws exactly when some top-level route other than the last one has path
`'*'` — equivalently, when a wildcard occurs among all top-level routes but
the last.  Wildcards inside child sibling lists are never checked. -/
theorem C8_corrected_theorem (routes : List Route) :
    constructorThrows routes = true ↔ ∃ r ∈ routes.dropLast, r.path = "*" := by
  induction routes with
  | nil => simp [constructorThrows, findIndexRoute]
  | cons r t ih =>
    rw [constructorThrows, findIndexRoute]
    by_cases hr : r.path = "*"
    · rw [if_pos (by simp [hr])]
      rw [ite_true_false_iff]
      cases t with
      | nil => simp
      | cons x t' =>
        simp only [List.dropLast_cons₂, List.length_cons]
        constructor
        · intro _
          exact ⟨r, List.mem_cons_self r _, hr⟩
        · intro _
          omega
    · rw [if_neg (by simp [hr])]
      cases hf : findIndexRoute (fun r => r.path = "*") t with
      | none =>
        have hnone := (findIndexRoute_eq_none_iff (fun r => r.path = "*") t).mp hf
        simp only [Option.map_none']
        constructor
        · intro habs
          exact absurd habs (by simp)
        · rintro ⟨r', hmem, hstar⟩
          have hmem' : r' ∈ r :: t := List.dropLast_subset _ hmem
          rcases List.mem_cons.mp hmem' with h1 | h2
          · exact absurd (h1 ▸ hstar) hr
          · have := hnone r' h2
            simp [hstar] at this
      | some j =>
        simp only [Option.map_some']
        rw [ite_true_false_iff]
        cases t with
        | nil => simp [findIndexRoute] at hf
        | cons x t' =>
          have hthrows : constructorThrows (x :: t') = true ↔ j ≠ (x :: t').length - 1 := by
            rw [constructorThrows, hf, ite_true_false_iff]
          simp only [List.dropLast_cons₂, List.length_cons] at ih ⊢
          simp only [List.length_cons] at hthrows
          constructor
          · intro hcond
            have : constructorThrows (x :: t') = true := hthrows.mpr (by omega)
            rcases ih.mp this with ⟨r', hmem, hstar⟩
            exact ⟨r', List.mem_cons_of_mem r hmem, hstar⟩
          · rintro ⟨r', hmem, hstar⟩
            rcases List.mem_cons.mp hmem with h1 | h2
            · exact absurd (h1 ▸ hstar) hr
            · have := hthrows.mp (ih.mpr ⟨r', h2, hstar⟩)
              omega

theorem findRouteStep_flat (r : Route) (hchild : r.children = []) (p : String) (st : Params) :
    (findRouteStep r p st).map (fun x => x.1) =
      if routeMatches p r then some r else none := by
  cases r with
  | mk pf lc lch rd d children ca cd cl rs ec =>
    replace hchild : children = [] := hchild
    subst hchild
    rw [findRouteStep]
    by_cases h1 : pf = p
    · simp [h1, routeMatches]
    · rw [if_neg h1]
      by_cases h2 : pf = "*"
      · simp [h2, h1, routeMatches]
      · rw [if_neg h2]
        by_cases hlen : (segments pf).length ≠ (segments p).length
        · rw [if_pos hlen]
          simp [routeMatches, h1, h2, hlen]
        · rw [if_neg hlen]
          push_neg at hlen
          cases hseg : segLoop (segments pf) (segments p) [] with
          | none => simp [routeMatches, h1, h2, hseg]
          | some params =>
            dsimp only
            have hnil : findList ([] : List Route) p params = (none, params) := rfl
            rw [hnil]
            simp [routeMatches, h1, h2, hlen, hseg]

theorem findList_flat (routes : List Route) (pathname : String) (st : Params)
    (hflat : ∀ r ∈ routes, r.children = []) :
    (findList routes pathname st).1 = routes.find? (routeMatches pathname) := by
  induction routes with
  | nil => rfl
  | cons r t ih =>
    have hstep := findRouteStep_flat r (hflat r (List.mem_cons_self r t)) pathname st
    rw [findList]
    cases hs : findRouteStep r pathname st with
    | some pair =>
      rw [hs] at hstep
      by_cases hm : routeMatches pathname r
      · rw [if_pos hm] at hstep
        simp only [Option.map_some'] at hstep
        rw [List.find?_cons_of_pos _ hm]
        simp [← Option.some.injEq pair.1 r |>.mpr]
        exact Option.some.inj hstep
      · rw [if_neg hm] at hstep
        simp at hstep
    | none =>
      rw [hs] at hstep
      by_cases hm : routeMatches pathname r
      · rw [if_pos hm] at hstep
        simp at hstep
      · rw [List.find?_cons_of_neg _ (by simpa using hm)]
        exact ih (fun x hx => hflat x (List.mem_cons_of_mem r hx))

theorem foldl_bestStep_some (p : String) (l : List Route) (r0 : Route) :
    l.foldl (bestStep p) (some (r0, p.length)) = some (r0, p.length) := by
  induction l with
  | nil => rfl
  | cons r t ih =>
    rw [List.foldl_cons]
    have hb : bestStep p (some (r0, p.length)) r = some (r0, p.length) := by
      rw [bestStep]
      split
      · simp
      · rfl
    rw [hb, ih]

theorem foldl_bestStep_none (p : String) (l : List Route) :
    l.foldl (bestStep p) none =
      (l.find? (fun r => regexFullMatch r.path p)).map (fun r => (r, p.length)) := by
  induction l with
  | nil => rfl
  | cons r t ih =>
    rw [List.foldl_cons]
    by_cases h : regexFullMatch r.path p
    · have hb : bestStep p none r = some (r, p.length) := by
        rw [bestStep]
        simp [h]
      rw [hb, foldl_bestStep_some, List.find?_cons_of_pos _ (by simpa using h)]
      rfl
    · have hb : bestStep p none r = none := by
        rw [bestStep]
        simp [h]
      rw [hb, ih, List.find?_cons_of_neg _ (by simpa using h)]

theorem regexFullMatch_wildcard (p : String) : regexFullMatch "*" p = true := by
  rw [regexFullMatch]
  have htok : tokenizePath "*".toList = [RTok.wildcard] := by decide
  rw [htok, rmatch]
  rw [List.any_eq_true]
  refine ⟨p.toList.length, List.mem_range.mpr (Nat.lt_succ_self _), ?_⟩
  rw [List.drop_length]
  rfl

theorem findMatchingRouteB_eq_find? (routes : List Route) (p : String) :
    findMatchingRouteB routes p = routes.find? (fun r => regexFullMatch r.path p) := by
  rw [findMatchingRouteB, foldl_bestStep_none]
  cases hf : routes.find? (fun r => regexFullMatch r.path p) with
  | some r => rfl
  | none =>
    simp only [Option.map_none']
    rw [List.find?_eq_none]
    intro x hx hstar
    have hall := List.find?_eq_none.mp hf x hx
    have hx' : x.path = "*" := by simpa using hstar
    rw [hx'] at hall
    exact hall (by simpa using regexFullMatch_wildcard p)

/-- C5 counterexample: with sibling routes `/a/:x` declared before `/a/b`,
the pathname `/a/b` matches the parameterized sibling `/a/:x` in **both**
matchers (segment-based and regex-based), not the literal `/a/b` — there is
no longest-literal-span preference. -/
theorem C5_counterexample :
    ((findMatchingRoute [route0 "/a/:x", route0 "/a/b"] "/a/b" []).1.map
      (fun r => r.path)) = some "/a/:x" ∧
    (findMatchingRouteB [route0 "/a/:x", route0 "/a/b"] "/a/b").map
      (fun r => r.path) = some "/a/:x" ∧
    ("/a/:x" : String) ≠ "/a/b" := by
  refine ⟨by decide, by decide, by decide⟩

/-- C5 (amended): both matchers return the **first-declared** matching route,
with no longest-literal-span preference: the segment matcher (on sibling
lists without children) returns the first route whose path is string-equal to
the pathname, is `'*'`, or segment-matches; the regex matcher returns the
first route whose compiled anchored regex matches the pathname (every match
spans the whole pathname, so the `bestMatchLength` comparison never prefers a
later candidate; the separate `'*'` fallback is subsumed because a wildcard
route's regex matches everything).  The literal `/a/b` wins over `/a/:x` only
when declared first. -/
theorem C5_corrected_theorem :
    (∀ (routes : List Route) (pathname : String) (st : Params),
      (∀ r ∈ routes, r.children = []) →
      (findMatchingRoute routes pathname st).1 = routes.find? (routeMatches pathname)) ∧
    (∀ (routes : List Route) (pathname : String),
      findMatchingRouteB routes pathname =
        routes.find? (fun r => regexFullMatch r.path pathname)) :=
  ⟨fun routes pathname st hflat => findList_flat routes pathname st hflat,
   fun routes pathname => findMatchingRouteB_eq_find? routes pathname⟩

/-- C5 witness: the amended characterisation applied to the claim's sibling
pair, in both declaration orders. -/
theorem C5_witness :
    (findMatchingRoute [route0 "/a/:x", route0 "/a/b"] "/a/b" []).1 =
      [route0 "/a/:x", route0 "/a/b"].find? (routeMatches "/a/b") ∧
    (findMatchingRoute [route0 "/a/b", route0 "/a/:x"] "/a/b" []).1 =
      [route0 "/a/b", route0 "/a/:x"].find? (routeMatches "/a/b") ∧
    findMatchingRouteB [route0 "/a/:x", route0 "/a/b"] "/a/b" =
      [route0 "/a/:x", route0 "/a/b"].find? (fun r => regexFullMatch r.path "/a/b") :=
  ⟨C5_corrected_theorem.1 [route0 "/a/:x", route0 "/a/b"] "/a/b" []
      (by intro r hr; fin_cases hr <;> rfl),
   C5_corrected_theorem.1 [route0 "/a/b", route0 "/a/:x"] "/a/b" []
      (by intro r hr; fin_cases hr <;> rfl),
   C5_corrected_theorem.2 [route0 "/a/:x", route0 "/a/b"] "/a/b"⟩

theorem routeDepth_pos (r : Route) : 1 ≤ routeDepth r := by
  cases r with
  | mk pf lc lch rd d children ca cd cl rs ec =>
    rw [routeDepth]
    omega

theorem findList_seg_invariant (n : Nat) :
    ∀ (routes : List Route), routeDepthList routes ≤ n →
    ∀ (p p' : String) (st : Params), segments p = segments p' →
    p ∉ treePaths routes → p' ∉ treePaths routes →
    findList routes p st = findList routes p' st := by
  induction n with
  | zero =>
    intro routes
    cases routes with
    | nil => intro _ p p' st _ _ _; rfl
    | cons r t =>
      intro hd
      exfalso
      rw [routeDepthList] at hd
      have h1 := routeDepth_pos r
      have h2 := Nat.max_le.mp hd
      omega
  | succ n ih =>
    intro routes
    induction routes with
    | nil => intro _ p p' st _ _ _; rfl
    | cons r t iht =>
      intro hd p p' st hseg hp hp'
      rw [routeDepthList] at hd
      have hmax := Nat.max_le.mp hd
      rw [treePaths] at hp hp'
      simp only [List.mem_append] at hp hp'
      push_neg at hp hp'
      have hstep : findRouteStep r p st = findRouteStep r p' st := by
        cases r with
        | mk pf lc lch rd d children ca cd cl rs ec =>
          have hm : pf ≠ p ∧ p ∉ treePaths children := by
            have h1 := hp.1
            rw [treePathsRoute] at h1
            simp only [List.mem_cons] at h1
            push_neg at h1
            exact ⟨fun he => h1.1 he.symm, h1.2⟩
          have hm' : pf ≠ p' ∧ p' ∉ treePaths children := by
            have h1 := hp'.1
            rw [treePathsRoute] at h1
            simp only [List.mem_cons] at h1
            push_neg at h1
            exact ⟨fun he => h1.1 he.symm, h1.2⟩
          have hcd : routeDepthList children ≤ n := by
            have h := hmax.1
            rw [routeDepth] at h
            omega
          simp only [findRouteStep]
          rw [if_neg hm.1, if_neg hm'.1]
          by_cases hw : pf = "*"
          · rw [if_pos hw, if_pos hw]
          · rw [if_neg hw, if_neg hw]
            rw [hseg]
            by_cases hlen : (segments pf).length ≠ (segments p').length
            · rw [if_pos hlen, if_pos hlen]
            · rw [if_neg hlen, if_neg hlen]
              cases hsl : segLoop (segments pf) (segments p') [] with
              | none => rfl
              | some params =>
                have hrec := ih children hcd p p' params hseg hm.2 hm'.2
                dsimp only
                rw [hrec]
      simp only [findList]
      rw [hstep]
      cases hs : findRouteStep r p' st with
      | some pair => rfl
      | none => exact iht hmax.2 p p' st hseg hp.2 hp'.2

/-- C10 counterexample: the exact-string fast path breaks segment
invariance.  For the route `/a` with a child whose path is also `/a`, the
pathname `"/a"` (exact string equality) returns the **parent** (it has one
child) without recursing, while the slash-variant `"/a/"` — with the same
non-empty segment sequence — takes the segment branch, recurses into the
children and returns the **child** (zero children).  So the returned route is
not a function of the segment sequence alone. -/
theorem C10_counterexample :
    ((findMatchingRoute [{ route0 "/a" with children := [route0 "/a"] }] "/a" []).1.map
      (fun r => r.children.length)) = some 1 ∧
    ((findMatchingRoute [{ route0 "/a" with children := [route0 "/a"] }] "/a/" []).1.map
      (fun r => r.children.length)) = some 0 ∧
    segments "/a" = segments "/a/" := by
  refine ⟨by decide, by decide, by decide⟩

/-- C10 (amended): the segment matcher is slash-insensitive **provided the
exact-string fast path is not taken**: whenever neither pathname occurs
verbatim as a `path` string anywhere in the route tree, two pathnames with
the same sequence of non-empty `/`-separated segments produce the same
returned route and the same parameter bindings.  (The claim's own example
satisfies this: `/users/42/` and `//users//42` match `/users/:id` with
`id = "42"`, exactly like `/users/42`.) -/
theorem C10_corrected_theorem (routes : List Route) (p p' : String) (st : Params)
    (hseg : segments p = segments p')
    (hp : p ∉ treePaths routes) (hp' : p' ∉ treePaths routes) :
    findMatchingRoute routes p st = findMatchingRoute routes p' st :=
  findList_seg_invariant (routeDepthList routes) routes (Nat.le_refl _) p p' st hseg hp hp'

/-- C10 witness: the amended invariance applied to the claim's example, with
the hypotheses discharged by evaluation; the common result binds `id = "42"`. -/
theorem C10_witness :
    findMatchingRoute [route0 "/users/:id"] "/users/42" [] =
      findMatchingRoute [route0 "/users/:id"] "//users//42/" [] ∧
    (findMatchingRoute [route0 "/users/:id"] "//users//42/" []).2 = [("id", "42")] :=
  ⟨C10_corrected_theorem [route0 "/users/:id"] "/users/42" "//users//42/" []
      (by decide) (by decide) (by decide),
   by decide⟩

theorem guards_any_false {α : Type} (l : List α) (f : α → Bool)
    (h : ∀ x ∈ l, f x = true) : (l.map f).any (fun b => !b) = false := by
  rw [List.any_eq_false]
  intro b hb
  simp only [List.mem_map] at hb
  obtain ⟨x, hx, rfl⟩ := hb
  simp [h x hx]

theorem bools_any_false (l : List Bool) (h : ∀ b ∈ l, b = true) :
    l.any (fun b => !b) = false := by
  rw [List.any_eq_false]
  intro b hb
  simp [h b hb]

theorem resolvers_any_false (l : List (String × (ActivatedRoute → Option String)))
    (act : ActivatedRoute) (h : ∀ kv ∈ l, (kv.2 act).isSome = true) :
    l.any (fun kv => (kv.2 act).isNone) = false := by
  rw [List.any_eq_false]
  intro kv hkv
  have := h kv hkv
  cases hv : kv.2 act with
  | none => rw [hv] at this; cases this
  | some v => simp [hv]

/-- C1 (amended): the redirect check comes **after** the guards and the
resolvers, not before them.  When the matched route has `redirectTo` set and
every guard accepts and every resolver succeeds, the attempt ends in
`Redirect` on the substituted target and the loader is never invoked, no
view is mounted and no `routechange` event is dispatched — but the trace
shows that every activation-guard, every load-guard (when a loader is
declared), every deactivation-guard (when a view is mounted) and every
resolver **was evaluated** before the redirect; a rejecting guard or
resolver pre-empts the redirect entirely. -/
theorem C1_corrected_theorem (routes : List Route) (st : RouterState) (path pn : String)
    (pr q : Params) (r : Route) (tgt : String)
    (hparse : parsePathB routes path = some (pn, pr, q))
    (hfind : findMatchingRouteB routes pn = some r)
    (hred : r.redirectTo = some tgt)
    (hca : ∀ g ∈ r.canActivate, g (activatedFrom ⟨pr, pn, q, st.mounted⟩ r.data) = true)
    (hcl : ∀ b ∈ r.canLoad, b = true)
    (hcd : ∀ g ∈ r.canDeactivate, g (activatedFrom ⟨pr, pn, q, st.mounted⟩ r.data) = true)
    (hres : ∀ kv ∈ r.resolve,
      (kv.2 (activatedFrom ⟨pr, pn, q, st.mounted⟩ r.data)).isSome = true) :
    handleRoutingB routes st path =
      (⟨pr, pn, q, st.mounted⟩,
        (r.canActivate.enum.map (fun g =>
          Ev.evalCanActivate g.1 (activatedFrom ⟨pr, pn, q, st.mounted⟩ r.data)
            (g.2 (activatedFrom ⟨pr, pn, q, st.mounted⟩ r.data)))) ++
        ((if r.loadChildren.isSome || r.loadComponent.isSome then
          r.canLoad.enum.map (fun b => Ev.evalCanLoad b.1 b.2) else []) ++
        ((if st.mounted then
          r.canDeactivate.enum.map (fun g =>
            Ev.evalCanDeactivate g.1 (activatedFrom ⟨pr, pn, q, st.mounted⟩ r.data)
              (g.2 (activatedFrom ⟨pr, pn, q, st.mounted⟩ r.data))) else []) ++
        ((r.resolve.map (fun kv =>
          Ev.evalResolve kv.1
            (kv.2 (activatedFrom ⟨pr, pn, q, st.mounted⟩ r.data)).isSome)) ++
        [Ev.navigateCall (handleRedirect tgt pr) true]))),
        Outcome.redirected (handleRedirect tgt pr)) := by
  have h1 := guards_any_false r.canActivate
    (fun g => g (activatedFrom ⟨pr, pn, q, st.mounted⟩ r.data)) hca
  have h2 := bools_any_false r.canLoad hcl
  have h3 := guards_any_false r.canDeactivate
    (fun g => g (activatedFrom ⟨pr, pn, q, st.mounted⟩ r.data)) hcd
  have h4 := resolvers_any_false r.resolve (activatedFrom ⟨pr, pn, q, st.mounted⟩ r.data) hres
  rw [handleRoutingB, hparse]
  dsimp only
  rw [hfind]
  dsimp only
  rw [h1]
  simp only [Bool.false_eq_true, if_false]
  rw [h2]
  simp only [Bool.and_false, Bool.false_eq_true, if_false]
  rw [h3]
  simp only [Bool.and_false, Bool.false_eq_true, if_false]
  rw [h4]
  simp only [Bool.false_eq_true, if_false]
  rw [hred]
  dsimp only
  simp [List.append_assoc]

/-- C1 counterexample: a matched route with `redirectTo` set does **not**
return `Redirect` immediately.  With a rejecting activation-guard the
attempt ends `Blocked` (never `Redirect`) and the guard's evaluation is in
the trace; with a resolver declared, the resolver **is** evaluated before the
redirect is taken.  Both refute "none of that route's guards or resolvers is
evaluated". -/
theorem C1_counterexample :
    (handleRoutingB [{ route0 "/r" with redirectTo := some "/t", canActivate := [fun _ => false] }] {} "/r").2.2 = Outcome.blocked ∧
    Ev.evalCanActivate 0 ⟨[], [], "/r", []⟩ false ∈
      (handleRoutingB [{ route0 "/r" with redirectTo := some "/t", canActivate := [fun _ => false] }] {} "/r").2.1 ∧
    Ev.evalResolve "k" true ∈
      (handleRoutingB [{ route0 "/r" with redirectTo := some "/t", resolve := [("k", fun _ => some "v")] }] {} "/r").2.1 := by
  refine ⟨by decide, by decide, by decide⟩

/-- C1 witness: the amended redirect behaviour at the spec's own example —
`{path: "/old/:id", redirectTo: "/new/:id"}` navigated to `/old/7` with one
passing activation-guard and one succeeding resolver: both are evaluated,
then the attempt redirects to `/new/7`. -/
theorem C1_witness :
    handleRoutingB [{ route0 "/old/:id" with redirectTo := some "/new/:id", canActivate := [fun _ => true], resolve := [("k", fun _ => some "v")] }] {} "/old/7" =
      (⟨[("id", "7")], "/old/7", [], false⟩,
        [Ev.evalCanActivate 0 ⟨[("id", "7")], [], "/old/7", []⟩ true,
         Ev.evalResolve "k" true,
         Ev.navigateCall "/new/7" true],
        Outcome.redirected "/new/7") := by
  have h := C1_corrected_theorem
    [{ route0 "/old/:id" with redirectTo := some "/new/:id", canActivate := [fun _ => true], resolve := [("k", fun _ => some "v")] }]
    {} "/old/7" "/old/7" [("id", "7")] []
    { route0 "/old/:id" with redirectTo := some "/new/:id", canActivate := [fun _ => true], resolve := [("k", fun _ => some "v")] }
    "/new/:id" rfl rfl rfl (by simp [route0]) (by simp [route0]) (by simp [route0])
    (by simp [route0])
  rw [h]
  rfl

theorem routechangeEvents_map_nil {α : Type} (l : List α) (f : α → Ev)
    (hf : ∀ x p pr q, f x ≠ Ev.routechange p pr q) :
    routechangeEvents (l.map f) = [] := by
  rw [routechangeEvents, List.filter_eq_nil_iff]
  intro e he
  obtain ⟨x, hx, hfx⟩ := List.mem_map.mp he
  subst hfx
  cases hq : f x <;> simp
  case routechange p pr q => exact absurd hq (hf x p pr q)

theorem rc_append (a b : List Ev) :
    routechangeEvents (a ++ b) = routechangeEvents a ++ routechangeEvents b := by
  simp [routechangeEvents]

theorem rc_actEvs (l : List (Nat × (ActivatedRoute → Bool))) (act : ActivatedRoute) :
    routechangeEvents (l.map (fun p => Ev.evalCanActivate p.1 act (p.2 act))) = [] :=
  routechangeEvents_map_nil _ _ (fun x p pr q => by simp)

theorem rc_deactEvs (l : List (Nat × (ActivatedRoute → Bool))) (act : ActivatedRoute) :
    routechangeEvents (l.map (fun p => Ev.evalCanDeactivate p.1 act (p.2 act))) = [] :=
  routechangeEvents_map_nil _ _ (fun x p pr q => by simp)

theorem rc_loadEvs (l : List (Nat × Bool)) :
    routechangeEvents (l.map (fun p => Ev.evalCanLoad p.1 p.2)) = [] :=
  routechangeEvents_map_nil _ _ (fun x p pr q => by simp)

theorem rc_resolveEvs (l : List (String × (ActivatedRoute → Option String)))
    (act : ActivatedRoute) :
    routechangeEvents (l.map (fun kv => Ev.evalResolve kv.1 (kv.2 act).isSome)) = [] :=
  routechangeEvents_map_nil _ _ (fun x p pr q => by simp)

theorem rc_nil : routechangeEvents [] = [] := rfl

theorem rc_ite (c : Prop) [Decidable c] (a b : List Ev) :
    routechangeEvents (if c then a else b) =
      if c then routechangeEvents a else routechangeEvents b :=
  apply_ite _ _ _ _

/-- C2 (amended): when a guard rejects (outcome `Blocked`) no `routechange`
event is dispatched for the attempt — but the controller's state is **not**
what it was before the attempt: `currentPath`, `currentParams` and
`currentQuery` were already overwritten with the attempted pathname, params
and query at the start of `_handleRouting`, before any guard ran (only the
mounted component is untouched). -/
theorem C2_corrected_theorem (routes : List Route) (st st' : RouterState) (path : String)
    (evs : List Ev)
    (h : handleRoutingB routes st path = (st', evs, Outcome.blocked)) :
    routechangeEvents evs = [] ∧
    ∃ pn pr q, parsePathB routes path = some (pn, pr, q) ∧
      st' = ⟨pr, pn, q, st.mounted⟩ := by
  rw [handleRoutingB] at h
  cases hparse : parsePathB routes path with
  | none =>
    rw [hparse] at h
    simp at h
  | some t3 =>
    obtain ⟨pn, pr, q⟩ := t3
    rw [hparse] at h
    dsimp only at h
    cases hfind : findMatchingRouteB routes pn with
    | none =>
      rw [hfind] at h
      simp at h
    | some r =>
      rw [hfind] at h
      dsimp only at h
      split at h
      · simp only [Prod.mk.injEq] at h
        obtain ⟨hst, hevs, _⟩ := h
        refine ⟨?_, pn, pr, q, rfl, hst.symm⟩
        rw [← hevs]
        exact rc_actEvs _ _
      · split at h
        · simp only [Prod.mk.injEq] at h
          obtain ⟨hst, hevs, _⟩ := h
          refine ⟨?_, pn, pr, q, rfl, hst.symm⟩
          rw [← hevs]
          simp [rc_append, rc_actEvs, rc_ite, rc_loadEvs, rc_nil]
        · split at h
          · simp only [Prod.mk.injEq] at h
            obtain ⟨hst, hevs, _⟩ := h
            refine ⟨?_, pn, pr, q, rfl, hst.symm⟩
            rw [← hevs]
            simp [rc_append, rc_actEvs, rc_ite, rc_loadEvs, rc_deactEvs, rc_nil]
          · split at h
            · simp at h
            · split at h
              · simp at h
              · split at h
                · split at h <;> simp at h
                · split at h
                  · split at h <;> simp at h
                  · simp at h

/-- C2 counterexample: a rejecting guard blocks the navigation, yet the
controller state is **not** what it was before the attempt: starting from
committed path `/a`, a blocked navigation to `/b` leaves
`currentPath = "/b"`. -/
theorem C2_counterexample :
    (handleRoutingB [{ route0 "/b" with canActivate := [fun _ => false] }] { currentParams := [("p", "1")], currentPath := "/a", currentQuery := [("z", "2")] } "/b").2.2 = Outcome.blocked ∧
    (handleRoutingB [{ route0 "/b" with canActivate := [fun _ => false] }] { currentParams := [("p", "1")], currentPath := "/a", currentQuery := [("z", "2")] } "/b").1.currentPath = "/b" ∧
    ("/b" : String) ≠ "/a" := by
  refine ⟨by decide, by decide, by decide⟩

/-- C2 witness: the amended blocked-attempt contract applied to that same
blocked navigation. -/
theorem C2_witness :
    routechangeEvents (handleRoutingB [{ route0 "/b" with canActivate := [fun _ => false] }] { currentParams := [("p", "1")], currentPath := "/a", currentQuery := [("z", "2")] } "/b").2.1 = [] ∧
    ∃ pn pr q,
      parsePathB [{ route0 "/b" with canActivate := [fun _ => false] }] "/b" = some (pn, pr, q) ∧
      (handleRoutingB [{ route0 "/b" with canActivate := [fun _ => false] }] { currentParams := [("p", "1")], currentPath := "/a", currentQuery := [("z", "2")] } "/b").1 =
        ⟨pr, pn, q, ({ currentParams := [("p", "1")], currentPath := "/a", currentQuery := [("z", "2")] } : RouterState).mounted⟩ :=
  C2_corrected_theorem _ _ _ _ _ rfl

theorem rc_mount_tail (path : String) (pr q : Params) :
    routechangeEvents [Ev.invokeLoader, Ev.mountedView, Ev.routechange path pr q] =
      [Ev.routechange path pr q] := rfl

theorem rc_error_tail (path : String) (pr q : Params) :
    routechangeEvents [Ev.invokeLoader, Ev.renderedLoadError, Ev.routechange path pr q] =
      [Ev.routechange path pr q] := rfl

theorem rc_single (path : String) (pr q : Params) :
    routechangeEvents [Ev.routechange path pr q] = [Ev.routechange path pr q] := rfl

/-- C3 (amended): after a navigation attempt whose lazy loader fails, exactly
one `routechange` event is still emitted, carrying the attempted raw path and
the attempted params/query — but the committed state does **not** keep the
pre-attempt pathname: `currentPath`/`currentParams`/`currentQuery` hold the
attempted values, overwritten at the start of the attempt (this holds for
every completed attempt, loader failure or success).  A failing **resolver**,
by contrast, aborts the attempt with an uncaught rejection: no `routechange`
event at all, with the state likewise already overwritten. -/
theorem C3_corrected_theorem (routes : List Route) (st st' : RouterState) (path pn : String)
    (pr q : Params) (evs : List Ev) (o : Outcome)
    (h : handleRoutingB routes st path = (st', evs, o))
    (hparse : parsePathB routes path = some (pn, pr, q)) :
    (o = Outcome.completed →
      routechangeEvents evs = [Ev.routechange path pr q] ∧
      st'.currentPath = pn ∧ st'.currentParams = pr ∧ st'.currentQuery = q) ∧
    (o = Outcome.resolverThrew →
      routechangeEvents evs = [] ∧
      st'.currentPath = pn ∧ st'.currentParams = pr ∧ st'.currentQuery = q) := by
  rw [handleRoutingB, hparse] at h
  dsimp only at h
  cases hfind : findMatchingRouteB routes pn with
  | none =>
    rw [hfind] at h
    simp only [Prod.mk.injEq] at h
    obtain ⟨hst, hevs, ho⟩ := h
    subst hst
    subst hevs
    subst ho
    constructor <;> intro hco <;> simp at hco
  | some r =>
    rw [hfind] at h
    dsimp only at h
    split at h
    · simp only [Prod.mk.injEq] at h
      obtain ⟨hst, hevs, ho⟩ := h
      subst hst
      subst hevs
      subst ho
      constructor <;> intro hco <;> simp at hco
    · split at h
      · simp only [Prod.mk.injEq] at h
        obtain ⟨hst, hevs, ho⟩ := h
        subst hst
        subst hevs
        subst ho
        constructor <;> intro hco <;> simp at hco
      · split at h
        · simp only [Prod.mk.injEq] at h
          obtain ⟨hst, hevs, ho⟩ := h
          subst hst
          subst hevs
          subst ho
          constructor <;> intro hco <;> simp at hco
        · split at h
          · simp only [Prod.mk.injEq] at h
            obtain ⟨hst, hevs, ho⟩ := h
            subst hst
            subst hevs
            subst ho
            refine ⟨fun hco => by simp at hco, fun _ => ⟨?_, rfl, rfl, rfl⟩⟩
            simp [rc_append, rc_actEvs, rc_ite, rc_loadEvs, rc_deactEvs,
              rc_resolveEvs, rc_nil]
          · split at h
            · simp only [Prod.mk.injEq] at h
              obtain ⟨hst, hevs, ho⟩ := h
              subst hst
              subst hevs
              subst ho
              constructor <;> intro hco <;> simp at hco
            · split at h
              · split at h <;>
                  (simp only [Prod.mk.injEq] at h
                   obtain ⟨hst, hevs, ho⟩ := h
                   subst hst
                   subst hevs
                   subst ho
                   refine ⟨fun _ => ⟨?_, rfl, rfl, rfl⟩, fun hco => by simp at hco⟩
                   simp [rc_append, rc_actEvs, rc_ite, rc_loadEvs, rc_deactEvs,
                     rc_resolveEvs, rc_nil, rc_mount_tail, rc_error_tail, rc_single])
              · split at h
                · split at h <;>
                    (simp only [Prod.mk.injEq] at h
                     obtain ⟨hst, hevs, ho⟩ := h
                     subst hst
                     subst hevs
                     subst ho
                     refine ⟨fun _ => ⟨?_, rfl, rfl, rfl⟩, fun hco => by simp at hco⟩
                     simp [rc_append, rc_actEvs, rc_ite, rc_loadEvs, rc_deactEvs,
                       rc_resolveEvs, rc_nil, rc_mount_tail, rc_error_tail, rc_single])
                · simp only [Prod.mk.injEq] at h
                  obtain ⟨hst, hevs, ho⟩ := h
                  subst hst
                  subst hevs
                  subst ho
                  refine ⟨fun _ => ⟨?_, rfl, rfl, rfl⟩, fun hco => by simp at hco⟩
                  simp [rc_append, rc_actEvs, rc_ite, rc_loadEvs, rc_deactEvs,
                    rc_resolveEvs, rc_nil, rc_mount_tail, rc_error_tail, rc_single]

/-- C3 counterexample: navigating from committed path `/a` to `/b` whose
loader fails does emit the `routechange` event — but the committed state does
**not** keep `/a`: `currentPath` is `"/b"`.  And when a **resolver** fails,
no `routechange` event is emitted at all. -/
theorem C3_counterexample :
    Ev.renderedLoadError ∈ (handleRoutingB [{ route0 "/b" with loadComponent := some false }] { currentPath := "/a" } "/b").2.1 ∧
    (handleRoutingB [{ route0 "/b" with loadComponent := some false }] { currentPath := "/a" } "/b").1.currentPath = "/b" ∧
    ("/b" : String) ≠ "/a" ∧
    routechangeEvents (handleRoutingB [{ route0 "/b" with resolve := [("k", fun _ => none)] }] { currentPath := "/a" } "/b").2.1 = [] ∧
    (handleRoutingB [{ route0 "/b" with resolve := [("k", fun _ => none)] }] { currentPath := "/a" } "/b").2.2 = Outcome.resolverThrew := by
  refine ⟨by decide, by decide, by decide, by decide, by decide⟩

/-- C3 witness: the amended contract applied to the failing-loader run from
`/a` to `/b`. -/
theorem C3_witness :
    ((handleRoutingB [{ route0 "/b" with loadComponent := some false }] { currentPath := "/a" } "/b").2.2 = Outcome.completed →
      routechangeEvents (handleRoutingB [{ route0 "/b" with loadComponent := some false }] { currentPath := "/a" } "/b").2.1 = [Ev.routechange "/b" [] []] ∧
      (handleRoutingB [{ route0 "/b" with loadComponent := some false }] { currentPath := "/a" } "/b").1.currentPath = "/b" ∧
      (handleRoutingB [{ route0 "/b" with loadComponent := some false }] { currentPath := "/a" } "/b").1.currentParams = [] ∧
      (handleRoutingB [{ route0 "/b" with loadComponent := some false }] { currentPath := "/a" } "/b").1.currentQuery = []) ∧
    ((handleRoutingB [{ route0 "/b" with loadComponent := some false }] { currentPath := "/a" } "/b").2.2 = Outcome.resolverThrew →
      routechangeEvents (handleRoutingB [{ route0 "/b" with loadComponent := some false }] { currentPath := "/a" } "/b").2.1 = [] ∧
      (handleRoutingB [{ route0 "/b" with loadComponent := some false }] { currentPath := "/a" } "/b").1.currentPath = "/b" ∧
      (handleRoutingB [{ route0 "/b" with loadComponent := some false }] { currentPath := "/a" } "/b").1.currentParams = [] ∧
      (handleRoutingB [{ route0 "/b" with loadComponent := some false }] { currentPath := "/a" } "/b").1.currentQuery = []) := by
  exact C3_corrected_theorem [{ route0 "/b" with loadComponent := some false }]
    { currentPath := "/a" } _ "/b" "/b" [] [] _ _ rfl rfl

/-- C4 (amended): activation-guards run **before** load-guards.  When the
matched route has a lazy loader and a rejecting load-guard (reached because
every activation-guard accepted), the outcome is `Blocked` and the trace is
exactly the activation-guard evaluations followed by the load-guard
evaluations: no deactivation-guard and no resolver is evaluated and no
`routechange` is emitted — but the activation-guards **have already been
evaluated** for that attempt. -/
theorem C4_corrected_theorem (routes : List Route) (st : RouterState) (path pn : String)
    (pr q : Params) (r : Route)
    (hparse : parsePathB routes path = some (pn, pr, q))
    (hfind : findMatchingRouteB routes pn = some r)
    (hload : (r.loadChildren.isSome || r.loadComponent.isSome) = true)
    (hca : ∀ g ∈ r.canActivate, g (activatedFrom ⟨pr, pn, q, st.mounted⟩ r.data) = true)
    (hcl : r.canLoad.any (fun b => !b) = true) :
    handleRoutingB routes st path =
      (⟨pr, pn, q, st.mounted⟩,
        (r.canActivate.enum.map (fun g =>
          Ev.evalCanActivate g.1 (activatedFrom ⟨pr, pn, q, st.mounted⟩ r.data)
            (g.2 (activatedFrom ⟨pr, pn, q, st.mounted⟩ r.data)))) ++
          r.canLoad.enum.map (fun b => Ev.evalCanLoad b.1 b.2),
        Outcome.blocked) := by
  have h1 := guards_any_false r.canActivate
    (fun g => g (activatedFrom ⟨pr, pn, q, st.mounted⟩ r.data)) hca
  rw [handleRoutingB, hparse]
  dsimp only
  rw [hfind]
  dsimp only
  rw [h1]
  simp only [Bool.false_eq_true, if_false]
  simp [hload, hcl]

/-- C4 counterexample: with a lazy loader, a rejecting load-guard and one
activation-guard declared, the attempt is blocked and no resolver runs — but
the activation-guard **was** evaluated, refuting "no activation-guard … is
evaluated for that attempt". -/
theorem C4_counterexample :
    (handleRoutingB [{ route0 "/b" with loadComponent := some true, canLoad := [false], canActivate := [fun _ => true], resolve := [("k", fun _ => some "v")] }] {} "/b").2.2 = Outcome.blocked ∧
    Ev.evalCanActivate 0 ⟨[], [], "/b", []⟩ true ∈
      (handleRoutingB [{ route0 "/b" with loadComponent := some true, canLoad := [false], canActivate := [fun _ => true], resolve := [("k", fun _ => some "v")] }] {} "/b").2.1 ∧
    Ev.evalResolve "k" true ∉
      (handleRoutingB [{ route0 "/b" with loadComponent := some true, canLoad := [false], canActivate := [fun _ => true], resolve := [("k", fun _ => some "v")] }] {} "/b").2.1 := by
  refine ⟨by decide, by decide, by decide⟩

/-- C4 witness: the amended load-guard behaviour at a concrete route. -/
theorem C4_witness :
    handleRoutingB [{ route0 "/b" with loadComponent := some true, canLoad := [false], canActivate := [fun _ => true], resolve := [("k", fun _ => some "v")] }] {} "/b" =
      (⟨[], "/b", [], false⟩,
        [Ev.evalCanActivate 0 ⟨[], [], "/b", []⟩ true, Ev.evalCanLoad 0 false],
        Outcome.blocked) := by
  have h := C4_corrected_theorem
    [{ route0 "/b" with loadComponent := some true, canLoad := [false], canActivate := [fun _ => true], resolve := [("k", fun _ => some "v")] }]
    {} "/b" "/b" [] []
    { route0 "/b" with loadComponent := some true, canLoad := [false], canActivate := [fun _ => true], resolve := [("k", fun _ => some "v")] }
    rfl rfl rfl (by simp [route0]) rfl
  rw [h]
  rfl

/-- C9 (amended): deactivation-guards are only consulted when a component is
currently mounted, and any rejection blocks the navigation — but each guard
receives the **candidate** `ActivatedRoute` (the attempted pathname, params
and query, with the *new* route's data), not the previous one: the instance
fields were already overwritten before the guards run. -/
theorem C9_corrected_theorem (routes : List Route) (st : RouterState) (path pn : String)
    (pr q : Params) (r : Route)
    (hparse : parsePathB routes path = some (pn, pr, q))
    (hfind : findMatchingRouteB routes pn = some r)
    (hmounted : st.mounted = true)
    (hca : ∀ g ∈ r.canActivate, g (activatedFrom ⟨pr, pn, q, st.mounted⟩ r.data) = true)
    (hclpass : ((r.loadChildren.isSome || r.loadComponent.isSome) &&
      r.canLoad.any (fun b => !b)) = false)
    (hcd : ((r.canDeactivate.map (fun g =>
      g (activatedFrom ⟨pr, pn, q, st.mounted⟩ r.data))).any (fun b => !b)) = true) :
    handleRoutingB routes st path =
      (⟨pr, pn, q, st.mounted⟩,
        (r.canActivate.enum.map (fun g =>
          Ev.evalCanActivate g.1 (activatedFrom ⟨pr, pn, q, st.mounted⟩ r.data)
            (g.2 (activatedFrom ⟨pr, pn, q, st.mounted⟩ r.data)))) ++
        (if (r.loadChildren.isSome || r.loadComponent.isSome) = true then
          r.canLoad.enum.map (fun b => Ev.evalCanLoad b.1 b.2) else []) ++
        (r.canDeactivate.enum.map (fun g =>
          Ev.evalCanDeactivate g.1 (activatedFrom ⟨pr, pn, q, st.mounted⟩ r.data)
            (g.2 (activatedFrom ⟨pr, pn, q, st.mounted⟩ r.data)))),
        Outcome.blocked) := by
  have h1 := guards_any_false r.canActivate
    (fun g => g (activatedFrom ⟨pr, pn, q, st.mounted⟩ r.data)) hca
  rw [handleRoutingB, hparse]
  dsimp only
  rw [hfind]
  dsimp only
  rw [h1]
  simp only [Bool.false_eq_true, if_false]
  rw [hclpass]
  simp only [Bool.false_eq_true, if_false]
  rw [hcd, hmounted]
  simp

/-- C9 counterexample: with committed previous path `/a`, a mounted view, and
a deactivation-guard on the new route `/b`, the guard is evaluated against an
`ActivatedRoute` whose path is the **candidate** `"/b"` — not the previous
`"/a"` as the claim states. -/
theorem C9_counterexample :
    (handleRoutingB [{ route0 "/b" with canDeactivate := [fun _ => true] }] { currentPath := "/a", mounted := true } "/b").2.1 =
      [Ev.evalCanDeactivate 0 ⟨[], [], "/b", []⟩ true, Ev.routechange "/b" [] []] ∧
    ("/b" : String) ≠ "/a" := by
  refine ⟨by decide, by decide⟩

/-- C9 witness: the amended deactivation behaviour at a concrete rejecting
guard — evaluated with the candidate path `/b`, blocking the attempt. -/
theorem C9_witness :
    handleRoutingB [{ route0 "/b" with canDeactivate := [fun _ => false] }] { currentPath := "/a", mounted := true } "/b" =
      (⟨[], "/b", [], true⟩,
        [Ev.evalCanDeactivate 0 ⟨[], [], "/b", []⟩ false],
        Outcome.blocked) := by
  have h := C9_corrected_theorem
    [{ route0 "/b" with canDeactivate := [fun _ => false] }]
    { currentPath := "/a", mounted := true } "/b" "/b" [] []
    { route0 "/b" with canDeactivate := [fun _ => false] }
    rfl rfl rfl (by simp [route0]) rfl rfl
  rw [h]
  rfl

theorem rc_nav (t : String) (b : Bool) :
    routechangeEvents [Ev.navigateCall t b] = [] := rfl

/-- C6 (amended): only the Angular-flavoured router substitutes placeholders.
There, a matched route with `redirectTo` set (once guards accept and
resolvers succeed) re-enters navigation with `replace = true` on
`_handleRedirect(redirectTo, params)` — each `:name` placeholder replaced by
the matched parameter of that name, left verbatim when absent or empty.
`router2.ts`, by contrast, re-enters `navigate(redirectTo, true)` with the
target string verbatim, performing no substitution at all (see the
counterexample). -/
theorem C6_corrected_theorem (routes : List Route) (st : RouterState) (path pn : String)
    (pr q : Params) (r : Route) (tgt : String)
    (hparse : parsePathB routes path = some (pn, pr, q))
    (hfind : findMatchingRouteB routes pn = some r)
    (hred : r.redirectTo = some tgt)
    (hca : ∀ g ∈ r.canActivate, g (activatedFrom ⟨pr, pn, q, st.mounted⟩ r.data) = true)
    (hcl : ∀ b ∈ r.canLoad, b = true)
    (hcd : ∀ g ∈ r.canDeactivate, g (activatedFrom ⟨pr, pn, q, st.mounted⟩ r.data) = true)
    (hres : ∀ kv ∈ r.resolve,
      (kv.2 (activatedFrom ⟨pr, pn, q, st.mounted⟩ r.data)).isSome = true) :
    ∃ evs, handleRoutingB routes st path =
        (⟨pr, pn, q, st.mounted⟩, evs, Outcome.redirected (handleRedirect tgt pr)) ∧
      Ev.navigateCall (handleRedirect tgt pr) true ∈ evs ∧
      routechangeEvents evs = [] := by
  have h1 := guards_any_false r.canActivate
    (fun g => g (activatedFrom ⟨pr, pn, q, st.mounted⟩ r.data)) hca
  have h2 := bools_any_false r.canLoad hcl
  have h3 := guards_any_false r.canDeactivate
    (fun g => g (activatedFrom ⟨pr, pn, q, st.mounted⟩ r.data)) hcd
  have h4 := resolvers_any_false r.resolve (activatedFrom ⟨pr, pn, q, st.mounted⟩ r.data) hres
  rw [handleRoutingB, hparse]
  dsimp only
  rw [hfind]
  dsimp only
  rw [h1]
  simp only [Bool.false_eq_true, if_false]
  rw [h2]
  simp only [Bool.and_false, Bool.false_eq_true, if_false]
  rw [h3]
  simp only [Bool.and_false, Bool.false_eq_true, if_false]
  rw [h4]
  simp only [Bool.false_eq_true, if_false]
  rw [hred]
  dsimp only
  refine ⟨_, rfl, ?_, ?_⟩
  · simp
  · simp [rc_append, rc_actEvs, rc_ite, rc_loadEvs, rc_deactEvs, rc_resolveEvs,
      rc_nil, rc_nav]

/-- C6 counterexample: in `router2.ts` the route
`{path: "/old/:id", redirectTo: "/new/:id"}` navigated to `/old/7` re-enters
navigation on the **verbatim** string `"/new/:id"`, not on the substituted
`"/new/7"` — no placeholder substitution happens in that implementation. -/
theorem C6_counterexample :
    (handleRouting2 [{ route0 "/old/:id" with redirectTo := some "/new/:id" }] {} "/old/7").2.2 = Outcome.redirected "/new/:id" ∧
    Ev.navigateCall "/new/:id" true ∈
      (handleRouting2 [{ route0 "/old/:id" with redirectTo := some "/new/:id" }] {} "/old/7").2.1 ∧
    ("/new/:id" : String) ≠ "/new/7" := by
  refine ⟨by decide, by decide, by decide⟩

/-- C6 witness: the Angular-flavoured router at the claim's example —
`/old/7` redirects to `/new/7` with `replace = true`, the placeholder
substituted from the matched `id = "7"`. -/
theorem C6_witness :
    ∃ evs, handleRoutingB [{ route0 "/old/:id" with redirectTo := some "/new/:id" }] {} "/old/7" =
        (⟨[("id", "7")], "/old/7", [], false⟩, evs, Outcome.redirected "/new/7") ∧
      Ev.navigateCall "/new/7" true ∈ evs ∧
      routechangeEvents evs = [] := by
  have h := C6_corrected_theorem
    [{ route0 "/old/:id" with redirectTo := some "/new/:id" }] {} "/old/7" "/old/7"
    [("id", "7")] [] { route0 "/old/:id" with redirectTo := some "/new/:id" } "/new/:id"
    rfl rfl rfl (by simp [route0]) (by simp [route0]) (by simp [route0]) (by simp [route0])
  have hsub : handleRedirect "/new/:id" [("id", "7")] = "/new/7" := rfl
  rw [hsub] at h
  exact h
